import Mathlib

/-!
Verification of the appium-uiwatchers-plugin core against its design
specification.

This file is a shallow embedding of the plugin's TypeScript sources:

* `src/src/watcher-store.ts`   -> `WatcherStore` and its operations
* `src/src/element-cache.ts`   -> `ElementReferenceCache` and its operations
* the validators module (`validateLocator`, `validateWatcherParams`)
* the watcher-checker module (`checkWatchers`)
* `src/src/plugin.ts`          -> the `findElement` wrapper and
  `interceptAction` (stale-element recovery)

JavaScript `Map`s are modelled as insertion-ordered association lists,
`Date.now()` as an explicit `now : Int` argument, thrown exceptions as
`Except`, and the asynchronous driver as a deterministic function record.
Driver calls and cooldown waits are recorded in an explicit event trace so
that properties such as "zero driver calls" or "no cooldown delay" are
directly expressible.
-/

deriving instance DecidableEq for Except

/-- An Appium locator.  The TypeScript field is called `using`, which is a
Lean keyword, so it is named `strategy` here; `value` keeps its name. -/
structure Locator where
  strategy : String
  value : String
deriving DecidableEq, Repr

instance : Inhabited Locator := ⟨⟨"", ""⟩⟩

/-- Watcher lifecycle status (`'active' | 'inactive'` in the source). -/
inductive WStatus where
  | active
  | inactive
deriving DecidableEq, Repr

/-- Internal watcher state (`WatcherState` in `types.ts`).  Timestamps and
durations are milliseconds, modelled as `Int` (JavaScript numbers produced
by `Date.now()` and arithmetic on them). -/
structure WatcherState where
  name : String
  priority : Int
  referenceLocator : Locator
  actionLocator : Locator
  duration : Int
  stopOnFound : Bool
  cooldownMs : Int
  registeredAt : Int
  expiresAt : Int
  status : WStatus
  triggerCount : Nat
  lastTriggeredAt : Option Int
deriving DecidableEq, Repr

/-- Raw registration parameters as they arrive from the wire
(`UIWatcher` in `types.ts`, before validation).  Optional or possibly
missing / non-well-typed fields are modelled as `Option`: `none` stands for
a field that is absent, `null`, or not of the required JavaScript type. -/
structure RawParams where
  name : String
  referenceLocator : Option Locator
  actionLocator : Option Locator
  duration : Option Int
  priority : Option Int
  stopOnFound : Option Bool
  cooldownMs : Option Int
deriving DecidableEq, Repr

/-- The watcher store (`WatcherStore` in `watcher-store.ts`).  The
JavaScript `Map<string, WatcherState>` keyed by watcher name is modelled as
an insertion-ordered list; well-formed stores have pairwise distinct
names. -/
structure WatcherStore where
  watchers : List WatcherState
  enabled : Bool
deriving DecidableEq, Repr

/-- `MAX_WATCHERS` constant from `watcher-store.ts`. -/
def MAX_WATCHERS : Nat := 5

/-- `MAX_DURATION_MS` constant from the validators module. -/
def MAX_DURATION_MS : Int := 60000

/-- `this.watchers.has(name)` on the underlying map. -/
def WatcherStore.hasName (st : WatcherStore) (n : String) : Bool :=
  st.watchers.any (fun w => w.name = n)

/-- `WatcherStore.getActiveWatchers`: partitions the stored watchers into
unexpired ones (kept, in insertion order) and expired ones
(`now >= expiresAt`, deleted from storage).  Returns the unexpired list
together with the pruned store. -/
def WatcherStore.getActiveWatchers (st : WatcherStore) (now : Int) :
    List WatcherState × WatcherStore :=
  let act := st.watchers.filter (fun w => now < w.expiresAt)
  (act, { st with watchers := act })

/-- The comparator of `WatcherStore.getSortedWatchers` as a boolean
"may come first" relation: the comparator returns
`b.priority - a.priority` when priorities differ (negative exactly when
`a.priority > b.priority`) and `a.registeredAt - b.registeredAt` on ties. -/
def watcherLE (a b : WatcherState) : Bool :=
  if a.priority = b.priority then a.registeredAt ≤ b.registeredAt
  else b.priority < a.priority

/-- Insertion step of the comparator sort. -/
def insertW (x : WatcherState) : List WatcherState → List WatcherState
  | [] => [x]
  | y :: ys => if watcherLE x y then x :: y :: ys else y :: insertW x ys

/-- A comparator-consistent sort modelling `Array.prototype.sort` with the
`getSortedWatchers` comparator (the source relies only on the comparator
contract of the library sort). -/
def insertionSortW (l : List WatcherState) : List WatcherState :=
  l.foldr insertW []

/-- `WatcherStore.getSortedWatchers`: active watchers sorted by priority
descending, then registration time ascending. -/
def WatcherStore.getSortedWatchers (st : WatcherStore) (now : Int) :
    List WatcherState × WatcherStore :=
  let pr := st.getActiveWatchers now
  (insertionSortW pr.1, pr.2)

/-- `WatcherStore.markInactive`: sets `status` to `inactive` for the named
watcher, a no-op if absent. -/
def WatcherStore.markInactive (st : WatcherStore) (n : String) : WatcherStore :=
  { st with
    watchers := st.watchers.map (fun w =>
      if w.name = n then { w with status := WStatus.inactive } else w) }

/-- `WatcherStore.incrementTriggerCount`: increments `triggerCount` and
sets `lastTriggeredAt` to `Date.now()` for the named watcher. -/
def WatcherStore.incrementTriggerCount (st : WatcherStore) (n : String)
    (now : Int) : WatcherStore :=
  { st with
    watchers := st.watchers.map (fun w =>
      if w.name = n then
        { w with triggerCount := w.triggerCount + 1, lastTriggeredAt := some now }
      else w) }

/-- `WatcherStore.remove`: deletes the named watcher, reporting whether it
was present. -/
def WatcherStore.remove (st : WatcherStore) (n : String) :
    Bool × WatcherStore :=
  (st.hasName n, { st with watchers := st.watchers.filter (fun w => w.name ≠ n) })

/-- Errors thrown by `WatcherStore.add`. -/
inductive AddError where
  | duplicateName
  | capacityExceeded
deriving DecidableEq, Repr

/-- `WatcherStore.add`: rejects a duplicate name (checked against the raw
`Map`, before any pruning), then rejects on capacity counted over the
unexpired watchers (this call prunes expired ones), and otherwise stores a
new state with `registeredAt = now`, `expiresAt = now + duration`, the
documented defaults, `status = active` and zeroed trigger statistics.
The returned store reflects any pruning the call performed. -/
def WatcherStore.add (st : WatcherStore) (p : RawParams) (now : Int) :
    Except AddError WatcherState × WatcherStore :=
  if st.hasName p.name then (Except.error AddError.duplicateName, st)
  else
    let pr := st.getActiveWatchers now
    if MAX_WATCHERS ≤ pr.1.length then
      (Except.error AddError.capacityExceeded, pr.2)
    else
      let w : WatcherState :=
        { name := p.name
          priority := p.priority.getD 0
          referenceLocator := p.referenceLocator.getD default
          actionLocator := p.actionLocator.getD default
          duration := p.duration.getD 0
          stopOnFound := p.stopOnFound.getD false
          cooldownMs := p.cooldownMs.getD 0
          registeredAt := now
          expiresAt := now + p.duration.getD 0
          status := WStatus.active
          triggerCount := 0
          lastTriggeredAt := none }
      (Except.ok w, { pr.2 with watchers := pr.2.watchers ++ [w] })

/-- Validation errors of the validators module, one constructor per
`throw` site relevant to this development. -/
inductive VError where
  | nameRequired
  | nameEmpty
  | locatorMissing
  | locatorFieldMissing
  | invalidStrategy
  | durationRequired
  | durationNotPositive
  | durationTooLong
  | cooldownNegative
deriving DecidableEq, Repr

/-- Character-wise lowercasing, modelling `String.prototype.toLowerCase`
on the ASCII strategy names the validator compares (structural stand-in
for `String.toLower`, whose core implementation does not reduce in the
kernel). -/
def toLowerStr (s : String) : String :=
  String.mk (s.data.map Char.toLower)

/-- Whitespace trimming, modelling `String.prototype.trim` (structural
stand-in for `String.trim`). -/
def trimStr (s : String) : String :=
  String.mk
    (((s.data.dropWhile Char.isWhitespace).reverse.dropWhile
        Char.isWhitespace).reverse)

/-- `VALID_LOCATOR_STRATEGIES` from the validators module. -/
def VALID_LOCATOR_STRATEGIES : List String :=
  ["id", "accessibility id", "class name", "xpath", "name",
   "-android uiautomator", "-ios predicate string", "-ios class chain",
   "css selector"]

/-- `validateLocator`: requires a present locator object with non-empty
`using` and `value` strings and a known strategy (case-insensitive). -/
def validateLocator (l : Option Locator) : Except VError Unit :=
  match l with
  | none => Except.error VError.locatorMissing
  | some loc =>
    if loc.strategy = "" then Except.error VError.locatorFieldMissing
    else if loc.value = "" then Except.error VError.locatorFieldMissing
    else if VALID_LOCATOR_STRATEGIES.contains (toLowerStr loc.strategy) then
      Except.ok ()
    else Except.error VError.invalidStrategy

/-- `validateWatcherParams`: the full validation chain run before
`WatcherStore.add` — name present and non-blank, both locators valid,
`duration` a number with `0 < duration ≤ MAX_DURATION_MS`, and
`cooldownMs`, when provided, non-negative. -/
def validateWatcherParams (p : RawParams) : Except VError Unit :=
  if p.name = "" then Except.error VError.nameRequired
  else if trimStr p.name = "" then Except.error VError.nameEmpty
  else
    match validateLocator p.referenceLocator with
    | Except.error e => Except.error e
    | Except.ok _ =>
      match validateLocator p.actionLocator with
      | Except.error e => Except.error e
      | Except.ok _ =>
        match p.duration with
        | none => Except.error VError.durationRequired
        | some d =>
          if d ≤ 0 then Except.error VError.durationNotPositive
          else if MAX_DURATION_MS < d then Except.error VError.durationTooLong
          else
            match p.cooldownMs with
            | some c =>
              if c < 0 then Except.error VError.cooldownNegative else Except.ok ()
            | none => Except.ok ()

/-- Errors surfaced by the `registerUIWatcher` command. -/
inductive RegError where
  | validation (e : VError)
  | store (e : AddError)
deriving DecidableEq, Repr

/-- `registerUIWatcher` command: validates the raw parameters and only then
calls `WatcherStore.add`; a validation failure leaves the store untouched. -/
def registerUIWatcher (st : WatcherStore) (p : RawParams) (now : Int) :
    Except RegError WatcherState × WatcherStore :=
  match validateWatcherParams p with
  | Except.error e => (Except.error (RegError.validation e), st)
  | Except.ok _ =>
    match st.add p now with
    | (Except.error e, st') => (Except.error (RegError.store e), st')
    | (Except.ok w, st') => (Except.ok w, st')

/-- Association-list lookup, modelling `Map.get`. -/
def mapLookup {α : Type} (m : List (String × α)) (k : String) : Option α :=
  (m.find? (fun e => e.1 = k)).map (fun e => e.2)

/-- Association-list update, modelling `Map.set`: replaces in place when the
key is present (JavaScript preserves the original insertion position),
appends otherwise. -/
def mapSet {α : Type} (m : List (String × α)) (k : String) (v : α) :
    List (String × α) :=
  if m.any (fun e => e.1 = k) then
    m.map (fun e => if e.1 = k then (k, v) else e)
  else m ++ [(k, v)]

/-- Association-list deletion, modelling `Map.delete`. -/
def mapDelete {α : Type} (m : List (String × α)) (k : String) :
    List (String × α) :=
  m.filter (fun e => e.1 ≠ k)

/-- A cached element reference (`CachedRef` in `types.ts`).  The source
tag is encoded by `index`: `none` for a `findElement` result
(`CachedElementRef`), `some i` for position `i` of a `findElements` result
(`CachedElementsRef`). -/
structure CachedRef where
  strategy : String
  value : String
  index : Option Nat
  createdAt : Int
deriving DecidableEq, Repr

/-- The element reference cache (`ElementReferenceCache` in
`element-cache.ts`): the locator cache keyed by element id, the id-mapping
table with its reverse index, the LRU order (most recent last), and the
configuration values. -/
structure ElementReferenceCache where
  cache : List (String × CachedRef)
  idMappings : List (String × String)
  reverseIndex : List (String × List String)
  accessOrder : List String
  maxCacheEntries : Nat
  elementTtlMs : Int
deriving DecidableEq, Repr

/-- `updateAccessOrder`: removes the id from its current position and
appends it as most recently used. -/
def ElementReferenceCache.updateAccessOrder (c : ElementReferenceCache)
    (elementId : String) : ElementReferenceCache :=
  { c with accessOrder := c.accessOrder.erase elementId ++ [elementId] }

/-- `removeFromCache`: deletes the entry and its LRU slot. -/
def ElementReferenceCache.removeFromCache (c : ElementReferenceCache)
    (elementId : String) : ElementReferenceCache :=
  { c with cache := mapDelete c.cache elementId,
           accessOrder := c.accessOrder.erase elementId }

/-- `evictLRU`: drops the least recently used id (front of the access
order) from the cache; a no-op when the access order is empty. -/
def ElementReferenceCache.evictLRU (c : ElementReferenceCache) :
    ElementReferenceCache :=
  match c.accessOrder with
  | [] => c
  | lru :: rest => { c with cache := mapDelete c.cache lru, accessOrder := rest }

/-- The `while (this.cache.size >= this.config.maxCacheEntries)` eviction
loop of `addToCache`.  In the source the loop can only terminate because
each productive `evictLRU` shortens the access order; the model recurses on
that same measure and, in the degenerate state the source would spin on
(cache entries but no access order), stops. -/
def ElementReferenceCache.evictLoop (c : ElementReferenceCache) :
    ElementReferenceCache :=
  if c.maxCacheEntries ≤ c.cache.length then
    match _hord : c.accessOrder with
    | [] => c
    | lru :: rest =>
      ElementReferenceCache.evictLoop
        { c with cache := mapDelete c.cache lru, accessOrder := rest }
  else c
termination_by c.accessOrder.length
decreasing_by simp [_hord]

/-- `addToCache`: evicts while at capacity, stores the entry, then touches
the LRU order. -/
def ElementReferenceCache.addToCache (c : ElementReferenceCache)
    (elementId : String) (ref : CachedRef) : ElementReferenceCache :=
  let c1 := c.evictLoop
  ElementReferenceCache.updateAccessOrder
    { c1 with cache := mapSet c1.cache elementId ref } elementId

/-- `cacheElement`: inserts a `findElement`-sourced entry. -/
def ElementReferenceCache.cacheElement (c : ElementReferenceCache)
    (elementId strategy value : String) (now : Int) : ElementReferenceCache :=
  c.addToCache elementId
    { strategy := strategy, value := value, index := none, createdAt := now }

/-- `cacheElements`: inserts one `findElements`-sourced entry per element,
tagged with its positional index. -/
def ElementReferenceCache.cacheElements (c : ElementReferenceCache)
    (elementIds : List String) (strategy value : String) (now : Int) :
    ElementReferenceCache :=
  (elementIds.enum.foldl (fun (acc : ElementReferenceCache) e =>
    acc.addToCache e.2
      { strategy := strategy, value := value, index := some e.1, createdAt := now })
    c)

/-- `getRef`: returns the cached entry unless absent or past its TTL; an
expired entry is removed, a hit refreshes the LRU order. -/
def ElementReferenceCache.getRef (c : ElementReferenceCache)
    (elementId : String) (now : Int) :
    Option CachedRef × ElementReferenceCache :=
  match mapLookup c.cache elementId with
  | none => (none, c)
  | some ref =>
    if c.elementTtlMs ≤ now - ref.createdAt then
      (none, c.removeFromCache elementId)
    else (some ref, c.updateAccessOrder elementId)

/-- `addToReverseIndex`: records `oldId` in the set of ids currently
mapping to `newId`. -/
def addToReverseIndex (ri : List (String × List String)) (oldId newId : String) :
    List (String × List String) :=
  match mapLookup ri newId with
  | some s => mapSet ri newId (if s.contains oldId then s else s ++ [oldId])
  | none => ri ++ [(newId, [oldId])]

/-- `setMapping`: rewrites every mapping whose target is `oldId` (found via
the reverse index) to target `newId`, drops the stale reverse entry for
`oldId`, then records `oldId -> newId` itself. -/
def ElementReferenceCache.setMapping (c : ElementReferenceCache)
    (oldId newId : String) : ElementReferenceCache :=
  let c1 :=
    match mapLookup c.reverseIndex oldId with
    | some srcs =>
      let c' := srcs.foldl (fun (acc : ElementReferenceCache) src =>
        { acc with idMappings := mapSet acc.idMappings src newId,
                   reverseIndex := addToReverseIndex acc.reverseIndex src newId }) c
      { c' with reverseIndex := mapDelete c'.reverseIndex oldId }
    | none => c
  { c1 with idMappings := mapSet c1.idMappings oldId newId,
            reverseIndex := addToReverseIndex c1.reverseIndex oldId newId }

/-- `getMappedId`: the id-mapping table lookup. -/
def ElementReferenceCache.getMappedId (c : ElementReferenceCache)
    (elementId : String) : Option String :=
  mapLookup c.idMappings elementId

/-- Observable interactions of the core with the Automation Driver: element
lookups, dismissal clicks, cooldown delays, and element-action
invocations (tagged with the element id they target). -/
inductive Ev where
  | findElementCall (strategy value : String)
  | findElementsCall (strategy value : String)
  | clickCall (elementId : String)
  | delay (ms : Int)
  | invoke (elementId : String)
deriving DecidableEq, Repr

/-- JavaScript exception kinds the plugin classifies.  The string
inspection of `error.name` / `error.message` in the source is abstracted
into these kinds. -/
inductive JsError where
  | noSuchElement
  | staleElementReference
  | otherError
deriving DecidableEq, Repr

/-- The deterministic Automation Driver model: `findElement` returns an
element id or fails (`none` models a thrown NoSuchElement), `findElements`
returns a possibly empty id list, `click` reports success, and `act` is
the outcome of invoking the intercepted element action on a given id. -/
structure Driver where
  findElement : String → String → Option String
  findElements : String → String → List String
  click : String → Bool
  act : String → Except JsError String

/-- One iteration of the `checkWatchers` loop body for a single watcher:
skip when inactive; locate the reference element (continue on failure);
locate and click the action element (on any failure continue with no
trigger, no state change, no cooldown); on success record the trigger,
apply `stopOnFound`, and append the cooldown delay when `cooldownMs > 0`.
Returns (triggered, driver events, updated store). -/
def checkOne (d : Driver) (now : Int) (w : WatcherState) (st : WatcherStore) :
    Bool × List Ev × WatcherStore :=
  if w.status = WStatus.inactive then (false, [], st)
  else
    let refEv := Ev.findElementCall w.referenceLocator.strategy w.referenceLocator.value
    match d.findElement w.referenceLocator.strategy w.referenceLocator.value with
    | none => (false, [refEv], st)
    | some _ =>
      let actEv := Ev.findElementCall w.actionLocator.strategy w.actionLocator.value
      match d.findElement w.actionLocator.strategy w.actionLocator.value with
      | none => (false, [refEv, actEv], st)
      | some el =>
        if d.click el then
          let st1 := (st.incrementTriggerCount w.name now)
          let st2 := if w.stopOnFound then st1.markInactive w.name else st1
          (true,
           [refEv, actEv, Ev.clickCall el]
             ++ (if 0 < w.cooldownMs then [Ev.delay w.cooldownMs] else []),
           st2)
        else (false, [refEv, actEv, Ev.clickCall el], st)

/-- `checkWatchers` from the watcher-checker module: returns false with no
driver calls when globally disabled or when the sorted active snapshot is
empty; otherwise evaluates every watcher of the snapshot in order,
accumulating the overall triggered flag, the driver-event trace, and the
store updates. -/
def checkWatchers (d : Driver) (st : WatcherStore) (now : Int) :
    Bool × List Ev × WatcherStore :=
  if st.enabled = false then (false, [], st)
  else
    let pr := st.getSortedWatchers now
    if pr.1.isEmpty then (false, [], pr.2)
    else
      pr.1.foldl (fun acc w =>
        let r := checkOne d now w acc.2.2
        (acc.1 || r.1, acc.2.1 ++ r.2.1, r.2.2)) (false, ([], pr.2))

/-- `shouldCheckWatchers` classification of a failed `findElement`:
NoSuchElement or StaleElementReference (including the message variants the
source matches by substring). -/
def shouldCheckWatchers (e : JsError) : Bool :=
  match e with
  | JsError.noSuchElement => true
  | JsError.staleElementReference => true
  | JsError.otherError => false

/-- Outcome of the orchestrated single-element lookup: the surfaced result,
whether the lookup was retried, how often and with which result
`checkWatchers` ran, and the updated session state. -/
structure FEOut where
  result : Except JsError String
  retried : Bool
  cwRuns : Nat
  cwResult : Option Bool
  store : WatcherStore
  cache : ElementReferenceCache
deriving Repr

namespace UIWatchersPlugin

/-- The `findElement` wrapper of `plugin.ts`.  `first` and `retry` are the
outcomes the driver chain (`next()`) produces for the first and for a
potential second attempt.  A success is cached under its locator; on a
failure classified by `shouldCheckWatchers` the wrapper runs
`checkWatchers` once, ignores its boolean result, always retries once,
caches and returns a successful retry, and surfaces the original failure
when the retry fails too. -/
def findElement (d : Driver) (st : WatcherStore) (c : ElementReferenceCache)
    (strategy value : String) (first retry : Except JsError String)
    (now : Int) : FEOut :=
  match first with
  | Except.ok el =>
    { result := Except.ok el, retried := false, cwRuns := 0, cwResult := none,
      store := st,
      cache := if strategy = "" ∨ value = "" then c
               else c.cacheElement el strategy value now }
  | Except.error e =>
    if shouldCheckWatchers e then
      let r := checkWatchers d st now
      match retry with
      | Except.ok el =>
        { result := Except.ok el, retried := true, cwRuns := 1,
          cwResult := some r.1, store := r.2.2,
          cache := if strategy = "" ∨ value = "" then c
                   else c.cacheElement el strategy value now }
      | Except.error _ =>
        { result := Except.error e, retried := true, cwRuns := 1,
          cwResult := some r.1, store := r.2.2, cache := c }
    else
      { result := Except.error e, retried := false, cwRuns := 0,
        cwResult := none, store := st, cache := c }

end UIWatchersPlugin

/-- Errors surfaced by the element-action interception path: a driver
error passed through, the recovery-impossible error thrown when no cached
locator exists, and the index-out-of-range error of positional recovery. -/
inductive ActionError where
  | js (e : JsError)
  | recoveryImpossible
  | indexNotFound
deriving DecidableEq, Repr

/-- Outcome of an intercepted element action: surfaced result, the full
event trace (every `Ev.invoke` records the element id the action actually
targeted), and the updated session state. -/
structure IAOut where
  result : Except ActionError String
  events : List Ev
  store : WatcherStore
  cache : ElementReferenceCache
deriving Repr

namespace UIWatchersPlugin

/-- The `interceptAction` method of `plugin.ts`.  The mapped id (`actualId`)
is computed up front, but the initial invocation is `next()`, which
continues the command chain with the *original* arguments, so the first
`Ev.invoke` carries `elementId`.  On a StaleElementReference failure:
run `checkWatchers`; if nothing fired rethrow the original error; else look
up the cached locator for `actualId` (recovery-impossible error when
absent); re-locate by source kind; on success record the id mapping and
retry the action against the new id, surfacing that retry's own outcome. -/
def interceptAction (d : Driver) (st : WatcherStore)
    (c : ElementReferenceCache) (elementId : String) (now : Int) : IAOut :=
  let actualId := (c.getMappedId elementId).getD elementId
  match d.act elementId with
  | Except.ok v =>
    { result := Except.ok v, events := [Ev.invoke elementId], store := st, cache := c }
  | Except.error e =>
    if e ≠ JsError.staleElementReference then
      { result := Except.error (ActionError.js e),
        events := [Ev.invoke elementId], store := st, cache := c }
    else
      let r := checkWatchers d st now
      if r.1 = false then
        { result := Except.error (ActionError.js e),
          events := Ev.invoke elementId :: r.2.1, store := r.2.2, cache := c }
      else
        match c.getRef actualId now with
        | (none, c1) =>
          { result := Except.error ActionError.recoveryImpossible,
            events := Ev.invoke elementId :: r.2.1, store := r.2.2, cache := c1 }
        | (some ref, c1) =>
          match ref.index with
          | none =>
            match d.findElement ref.strategy ref.value with
            | none =>
              { result := Except.error (ActionError.js JsError.noSuchElement),
                events := Ev.invoke elementId :: r.2.1
                  ++ [Ev.findElementCall ref.strategy ref.value],
                store := r.2.2, cache := c1 }
            | some newId =>
              if newId = "" then
                { result := Except.error (ActionError.js e),
                  events := Ev.invoke elementId :: r.2.1
                    ++ [Ev.findElementCall ref.strategy ref.value],
                  store := r.2.2, cache := c1 }
              else
                { result := (d.act newId).mapError ActionError.js,
                  events := Ev.invoke elementId :: r.2.1
                    ++ [Ev.findElementCall ref.strategy ref.value, Ev.invoke newId],
                  store := r.2.2, cache := c1.setMapping elementId newId }
          | some idx =>
            let els := d.findElements ref.strategy ref.value
            if els.length ≤ idx then
              { result := Except.error ActionError.indexNotFound,
                events := Ev.invoke elementId :: r.2.1
                  ++ [Ev.findElementsCall ref.strategy ref.value],
                store := r.2.2, cache := c1 }
            else
              let newId := els.getD idx ""
              if newId = "" then
                { result := Except.error (ActionError.js e),
                  events := Ev.invoke elementId :: r.2.1
                    ++ [Ev.findElementsCall ref.strategy ref.value],
                  store := r.2.2, cache := c1 }
              else
                { result := (d.act newId).mapError ActionError.js,
                  events := Ev.invoke elementId :: r.2.1
                    ++ [Ev.findElementsCall ref.strategy ref.value, Ev.invoke newId],
                  store := r.2.2, cache := c1.setMapping elementId newId }

end UIWatchersPlugin

/-!
Concrete session states, watchers, caches and drivers used to instantiate
the theorems below on explicit inputs.
-/

/-- A driver on which every lookup fails, every click fails and every
action errors. -/
def dNull : Driver :=
  { findElement := fun _ _ => none
    findElements := fun _ _ => []
    click := fun _ => false
    act := fun _ => Except.error JsError.otherError }

/-- A driver on which every lookup finds the element id el1, every click
succeeds and every action succeeds. -/
def dYes : Driver :=
  { findElement := fun _ _ => some "el1"
    findElements := fun _ _ => ["el1"]
    click := fun _ => true
    act := fun _ => Except.ok "done" }

/-- An empty element cache with the default configuration
(50 entries, 60000 ms TTL). -/
def cEmpty : ElementReferenceCache :=
  { cache := [], idMappings := [], reverseIndex := [], accessOrder := []
    maxCacheEntries := 50, elementTtlMs := 60000 }

/-- A template watcher: registered at 0, expires at 1000, active, never
triggered. -/
def mkW (n : String) : WatcherState :=
  { name := n, priority := 0
    referenceLocator := { strategy := "id", value := "popup" }
    actionLocator := { strategy := "id", value := "close" }
    duration := 1000, stopOnFound := false, cooldownMs := 0
    registeredAt := 0, expiresAt := 1000, status := WStatus.active
    triggerCount := 0, lastTriggeredAt := none }

/-- A watcher with stopOnFound set and a 100 ms cooldown. -/
def wStop : WatcherState := { mkW "w" with stopOnFound := true, cooldownMs := 100 }

/-- A store holding only wStop, enabled. -/
def stStop : WatcherStore := { watchers := [wStop], enabled := true }

/-- An empty, enabled store. -/
def stEmpty0 : WatcherStore := { watchers := [], enabled := true }

/-- An empty, disabled store. -/
def stDisabled : WatcherStore := { watchers := [], enabled := false }

/-- A watcher named x that is already expired at time 10. -/
def wExpiredX : WatcherState := { mkW "x" with expiresAt := 5 }

/-- A store still holding the expired watcher x. -/
def stExpired : WatcherStore := { watchers := [wExpiredX], enabled := true }

/-- Well-formed registration parameters for a watcher named x. -/
def pX : RawParams :=
  { name := "x"
    referenceLocator := some { strategy := "id", value := "popup" }
    actionLocator := some { strategy := "id", value := "close" }
    duration := some 30000, priority := none, stopOnFound := none
    cooldownMs := none }

/-- Well-formed registration parameters for a watcher named w9. -/
def pGood : RawParams := { pX with name := "w9" }

/-- Registration parameters with an invalid (zero) duration. -/
def pBad : RawParams := { pX with name := "w9b", duration := some 0 }

/-- The id-mapping-table states of the transitive-collapse scenarios:
first remap b to c, then remap a to b. -/
def c5rev : ElementReferenceCache :=
  (cEmpty.setMapping "b" "c").setMapping "a" "b"

/-- The spec's own example order: remap a to b, then remap b to c. -/
def c5fwd : ElementReferenceCache :=
  (cEmpty.setMapping "a" "b").setMapping "b" "c"

/-- The watcher state that registering pGood at time 100 stores. -/
def wGood : WatcherState :=
  { name := "w9", priority := 0
    referenceLocator := { strategy := "id", value := "popup" }
    actionLocator := { strategy := "id", value := "close" }
    duration := 30000, stopOnFound := false, cooldownMs := 0
    registeredAt := 100, expiresAt := 30100, status := WStatus.active
    triggerCount := 0, lastTriggeredAt := none }

/-- The store produced by registering pGood at time 100 in stEmpty0. -/
def stGood : WatcherStore := { watchers := [wGood], enabled := true }

/-- A cache whose id-mapping table maps old to new. -/
def cMap : ElementReferenceCache :=
  { cEmpty with idMappings := [("old", "new")], reverseIndex := [("new", ["old"])] }

/-- A plain active watcher named w. -/
def wPlain : WatcherState := mkW "w"

/-- A store holding only the plain watcher, enabled. -/
def stPlain : WatcherStore := { watchers := [wPlain], enabled := true }

/-- The cached locator for element old (a findElement-sourced entry). -/
def refOld : CachedRef :=
  { strategy := "id", value := "loc", index := none, createdAt := 0 }

/-- A cache holding the locator for old. -/
def cRec : ElementReferenceCache :=
  { cEmpty with cache := [("old", refOld)], accessOrder := ["old"] }

/-- A driver on which the action on old is stale, the cached locator
re-locates to newEl, every watcher reference and action is found, clicks
succeed, and actions on any other id succeed. -/
def dRec : Driver :=
  { findElement := fun _ v => if v = "loc" then some "newEl" else some "el1"
    findElements := fun _ _ => []
    click := fun _ => true
    act := fun i =>
      if i = "old" then Except.error JsError.staleElementReference
      else Except.ok "done" }

/-- An unexpired watcher already marked inactive. -/
def wInactive : WatcherState := { mkW "i" with status := WStatus.inactive }

/-- A store holding only the inactive (but unexpired) watcher. -/
def stInact : WatcherStore := { watchers := [wInactive], enabled := true }

/-- A store at capacity: five unexpired watchers, one of them inactive. -/
def stFive : WatcherStore :=
  { watchers := [mkW "a", mkW "b", mkW "c", mkW "d",
      { mkW "e" with status := WStatus.inactive }]
    enabled := true }

/-- Well-formed registration parameters under a fresh name. -/
def pNew : RawParams := { pX with name := "new" }

/-- Cache well-formedness: the LRU access order is duplicate-free and
holds exactly the cached keys.  This is the invariant the source maintains
between `cache` and `accessOrder` (every insertion, hit, removal and
eviction updates both together). -/
def CacheInv (c : ElementReferenceCache) : Prop :=
  c.accessOrder.Nodup ∧ (c.cache.map Prod.fst).Perm c.accessOrder

/-- A findElement-sourced cached reference (value v1). -/
def r1 : CachedRef := { strategy := "id", value := "v1", index := none, createdAt := 0 }

/-- A findElement-sourced cached reference (value v2). -/
def r2 : CachedRef := { strategy := "id", value := "v2", index := none, createdAt := 0 }

/-- A findElement-sourced cached reference (value v3). -/
def r3 : CachedRef := { strategy := "id", value := "v3", index := none, createdAt := 0 }

/-- A cache at its capacity of two entries, a older than b in LRU order. -/
def cTwo : ElementReferenceCache :=
  { cache := [("a", r1), ("b", r2)], idMappings := [], reverseIndex := []
    accessOrder := ["a", "b"], maxCacheEntries := 2, elementTtlMs := 60000 }

/-!
Helper lemmas.
-/

/-- Semantic characterisation of the sort comparator. -/
theorem watcherLE_iff (a b : WatcherState) :
    watcherLE a b = true ↔
      ((a.priority = b.priority ∧ a.registeredAt ≤ b.registeredAt) ∨
       (a.priority ≠ b.priority ∧ b.priority < a.priority)) := by
  unfold watcherLE
  by_cases h : a.priority = b.priority <;> simp [h]

/-- The comparator relation is transitive. -/
theorem watcherLE_trans (a b c : WatcherState)
    (h1 : watcherLE a b = true) (h2 : watcherLE b c = true) :
    watcherLE a c = true := by
  rw [watcherLE_iff] at h1 h2 ⊢
  omega

/-- The comparator relation is total. -/
theorem watcherLE_total (a b : WatcherState) :
    (watcherLE a b || watcherLE b a) = true := by
  rw [Bool.or_eq_true, watcherLE_iff, watcherLE_iff]
  omega

/-- Inserting is a permutation of consing. -/
theorem insertW_perm (x : WatcherState) (l : List WatcherState) :
    (insertW x l).Perm (x :: l) := by
  induction l with
  | nil => simp [insertW]
  | cons y ys ih =>
    unfold insertW
    by_cases h : watcherLE x y = true
    · rw [if_pos h]
    · rw [if_neg h]
      exact (ih.cons y).trans (List.Perm.swap x y ys)

/-- The sort permutes its input. -/
theorem insertionSortW_perm (l : List WatcherState) :
    (insertionSortW l).Perm l := by
  induction l with
  | nil => simp [insertionSortW]
  | cons x t ih =>
    have : insertionSortW (x :: t) = insertW x (insertionSortW t) := rfl
    rw [this]
    exact (insertW_perm x (insertionSortW t)).trans (ih.cons x)

/-- Insertion preserves sortedness with respect to the comparator. -/
theorem insertW_sorted (x : WatcherState) (l : List WatcherState)
    (h : l.Pairwise (fun a b => watcherLE a b = true)) :
    (insertW x l).Pairwise (fun a b => watcherLE a b = true) := by
  induction l with
  | nil => simp [insertW]
  | cons y ys ih =>
    rcases List.pairwise_cons.mp h with ⟨hy, hys⟩
    unfold insertW
    by_cases hxy : watcherLE x y = true
    · rw [if_pos hxy]
      refine List.pairwise_cons.mpr ⟨?_, h⟩
      intro b hb
      rcases List.mem_cons.mp hb with hb | hb
      · rw [hb]; exact hxy
      · exact watcherLE_trans x y b hxy (hy b hb)
    · rw [if_neg hxy]
      have hyx : watcherLE y x = true := by
        have := watcherLE_total x y
        rw [Bool.or_eq_true] at this
        tauto
      refine List.pairwise_cons.mpr ⟨?_, ih hys⟩
      intro b hb
      have hb' : b ∈ x :: ys := (insertW_perm x ys).mem_iff.mp hb
      rcases List.mem_cons.mp hb' with hb' | hb'
      · rw [hb']; exact hyx
      · exact hy b hb'

/-- The sort output is pairwise ordered by the comparator. -/
theorem insertionSortW_sorted (l : List WatcherState) :
    (insertionSortW l).Pairwise (fun a b => watcherLE a b = true) := by
  induction l with
  | nil => simp [insertionSortW]
  | cons x t ih =>
    have : insertionSortW (x :: t) = insertW x (insertionSortW t) := rfl
    rw [this]
    exact insertW_sorted x (insertionSortW t) ih

/-!
C7 — ordered snapshot.
-/

/-- C7: for every registry state, `getSortedWatchers` returns exactly the
unexpired watchers (as a permutation of the expiry filter of the storage),
ordered with non-increasing priorities, and with non-decreasing
`registeredAt` within every run of equal priority. -/
theorem getSortedWatchers_ordered (st : WatcherStore) (now : Int) :
    (st.getSortedWatchers now).1.Perm
        (st.watchers.filter (fun w => now < w.expiresAt)) ∧
    List.Pairwise
      (fun a b => b.priority ≤ a.priority ∧
        (a.priority = b.priority → a.registeredAt ≤ b.registeredAt))
      (st.getSortedWatchers now).1 := by
  constructor
  · simpa [WatcherStore.getSortedWatchers, WatcherStore.getActiveWatchers] using
      insertionSortW_perm (st.watchers.filter (fun w => now < w.expiresAt))
  · have hs := insertionSortW_sorted (st.watchers.filter (fun w => now < w.expiresAt))
    have hs' : List.Pairwise
        (fun a b => b.priority ≤ a.priority ∧
          (a.priority = b.priority → a.registeredAt ≤ b.registeredAt))
        (insertionSortW (st.watchers.filter (fun w => now < w.expiresAt))) :=
      hs.imp (fun {a b} h => by
        rw [watcherLE_iff] at h
        exact ⟨by omega, by omega⟩)
    simpa [WatcherStore.getSortedWatchers, WatcherStore.getActiveWatchers] using hs'

/-!
C8 — checkWatchers is a no-op when disabled or when no watcher is active.
-/

/-- C8: `checkWatchers` returns false and performs zero driver calls (an
empty event trace) whenever the global gate is disabled, and whenever the
registry holds no unexpired watcher. -/
theorem checkWatchers_noop (d : Driver) (st : WatcherStore) (now : Int)
    (h : st.enabled = false ∨
         st.watchers.filter (fun w => now < w.expiresAt) = []) :
    (checkWatchers d st now).1 = false ∧ (checkWatchers d st now).2.1 = [] := by
  rcases h with h | h
  · simp [checkWatchers, h]
  · by_cases he : st.enabled = false
    · simp [checkWatchers, he]
    · simp [checkWatchers, he, WatcherStore.getSortedWatchers,
        WatcherStore.getActiveWatchers, h, insertionSortW]

/-- Witness for C8 on a concrete disabled store and on a concrete store
whose only watcher is expired. -/
theorem checkWatchers_noop_witness :
    ((checkWatchers dNull stDisabled 0).1 = false ∧
     (checkWatchers dNull stDisabled 0).2.1 = []) ∧
    ((checkWatchers dYes stExpired 10).1 = false ∧
     (checkWatchers dYes stExpired 10).2.1 = []) :=
  ⟨checkWatchers_noop dNull stDisabled 0 (Or.inl (by decide)),
   checkWatchers_noop dYes stExpired 10 (Or.inr (by decide))⟩

/-!
C4 — duplicate-name check versus expired watchers.
-/

/-- C4 counterexample: at time 10 the stored watcher named x has
`expiresAt = 5 <= now`, yet `add` with that same name fails with the
duplicate-name error — expired watchers are not treated as absent by the
duplicate check. -/
theorem add_duplicate_despite_expired :
    wExpiredX.expiresAt ≤ 10 ∧
    wExpiredX ∈ stExpired.watchers ∧
    (stExpired.add pX 10).1 = Except.error AddError.duplicateName := by
  decide

/-- C4 amended: `add` fails with the duplicate-name error exactly when the
name is present in raw storage — including expired watchers that have not
yet been pruned by some intervening read. -/
theorem add_duplicate_iff (st : WatcherStore) (p : RawParams) (now : Int) :
    (st.add p now).1 = Except.error AddError.duplicateName ↔
      ∃ w ∈ st.watchers, w.name = p.name := by
  unfold WatcherStore.add
  by_cases h : st.hasName p.name = true
  · unfold WatcherStore.hasName at h
    rw [List.any_eq_true] at h
    obtain ⟨w, hw, hn⟩ := h
    simp only [WatcherStore.hasName, List.any_eq_true]
    constructor
    · intro _
      exact ⟨w, hw, by simpa using hn⟩
    · intro _
      simp only [decide_eq_true_eq] at *
      rw [if_pos ⟨w, hw, hn⟩]
  · unfold WatcherStore.hasName at h
    rw [List.any_eq_true] at h
    push_neg at h
    simp only [WatcherStore.hasName, List.any_eq_true]
    rw [if_neg (by simpa using h)]
    constructor
    · intro hcon
      split at hcon <;> simp at hcon
    · intro ⟨w, hw, hn⟩
      exact absurd (by simpa using hn) (by simpa using h w hw)

/-!
C5 — the id-mapping table is not single-hop in general.
-/

/-- C5 counterexample: after `setMapping b c` followed by `setMapping a b`,
the identifier a is present in the table and resolves to b, which itself
still has a mapping (to c) — a two-hop chain, violating the claimed
single-hop invariant over arbitrary call sequences. -/
theorem setMapping_two_hop :
    c5rev.getMappedId "a" = some "b" ∧
    c5rev.getMappedId "b" = some "c" := by
  decide

/-- C5 amended: in the spec's own order — `setMapping a b` then
`setMapping b c` — the eager rewrite via the reverse index collapses the
chain: both a and b resolve directly to c. -/
theorem setMapping_transitive_collapse :
    c5fwd.getMappedId "a" = some "c" ∧
    c5fwd.getMappedId "b" = some "c" := by
  decide

/-!
C2 — cooldown versus stopOnFound.
-/

/-- C2 counterexample: the watcher wStop has `stopOnFound = true` and
`cooldownMs = 100`; after its dismissal succeeds, the `checkWatchers` pass
nevertheless executes the 100 ms cooldown delay (the delay event appears
in the trace), contradicting the claim that the delay is skipped for a
stopOnFound trigger. -/
theorem checkWatchers_cooldown_despite_stop :
    wStop.stopOnFound = true ∧
    (checkWatchers dYes stStop 1).1 = true ∧
    Ev.delay 100 ∈ (checkWatchers dYes stStop 1).2.1 := by
  decide

/-- C2 amended: when a watcher's dismissal succeeds during a pass (one
iteration of the `checkWatchers` loop, `checkOne`), the trigger is
recorded and the watcher is marked inactive exactly when `stopOnFound` is
set; the cooldown delay however is executed whenever `cooldownMs > 0`,
independently of `stopOnFound`. -/
theorem checkOne_success_behavior (d : Driver) (now : Int)
    (w : WatcherState) (st : WatcherStore) (el : String)
    (hact : w.status = WStatus.active)
    (href : (d.findElement w.referenceLocator.strategy
              w.referenceLocator.value).isSome = true)
    (hel : d.findElement w.actionLocator.strategy w.actionLocator.value
            = some el)
    (hclick : d.click el = true) :
    (checkOne d now w st).1 = true ∧
    (checkOne d now w st).2.2 =
      (if w.stopOnFound then
        (st.incrementTriggerCount w.name now).markInactive w.name
       else st.incrementTriggerCount w.name now) ∧
    (Ev.delay w.cooldownMs ∈ (checkOne d now w st).2.1 ↔ 0 < w.cooldownMs) := by
  obtain ⟨r, hr⟩ := Option.isSome_iff_exists.mp href
  have hact' : ¬ w.status = WStatus.inactive := by
    rw [hact]; intro hcon; cases hcon
  unfold checkOne
  rw [if_neg hact', hr, hel]
  dsimp only
  rw [hclick]
  simp only [if_true]
  refine ⟨by trivial, by trivial, ?_⟩
  by_cases hcd : 0 < w.cooldownMs <;> simp [hcd]

/-- Witness for C2's amended theorem on the concrete wStop scenario. -/
theorem checkOne_success_behavior_witness :
    (checkOne dYes 1 wStop stStop).1 = true ∧
    (checkOne dYes 1 wStop stStop).2.2 =
      (if wStop.stopOnFound then
        (stStop.incrementTriggerCount wStop.name 1).markInactive wStop.name
       else stStop.incrementTriggerCount wStop.name 1) ∧
    (Ev.delay wStop.cooldownMs ∈ (checkOne dYes 1 wStop stStop).2.1 ↔
      0 < wStop.cooldownMs) :=
  checkOne_success_behavior dYes 1 wStop stStop "el1" (by decide) (by decide)
    (by decide) (by decide)

/-!
C9 — registration computes expiresAt and rejects invalid durations.
-/

/-- A successful validation forces a present duration within bounds. -/
theorem validate_ok_duration (p : RawParams)
    (h : validateWatcherParams p = Except.ok ()) :
    ∃ d, p.duration = some d ∧ 0 < d ∧ d ≤ MAX_DURATION_MS := by
  unfold validateWatcherParams at h
  split at h
  · cases h
  · split at h
    · cases h
    · split at h
      · cases h
      · split at h
        · cases h
        · split at h
          · cases h
          · rename_i d hd
            refine ⟨d, hd, ?_⟩
            split at h
            · cases h
            · split at h
              · cases h
              · omega

/-- An out-of-bounds (or absent) duration always fails validation. -/
theorem validate_bad_duration (p : RawParams)
    (hbad : ∀ d, p.duration = some d → ¬(0 < d ∧ d ≤ MAX_DURATION_MS)) :
    ∃ e, validateWatcherParams p = Except.error e := by
  cases h : validateWatcherParams p with
  | error e => exact ⟨e, rfl⟩
  | ok u =>
    cases u
    obtain ⟨d, hd, h1, h2⟩ := validate_ok_duration p h
    exact absurd ⟨h1, h2⟩ (hbad d hd)

/-- A successful `add` stores a watcher registered now that expires at
`now + duration`. -/
theorem add_ok (st : WatcherStore) (p : RawParams) (now : Int)
    (w : WatcherState) (st' : WatcherStore)
    (h : st.add p now = (Except.ok w, st')) :
    w ∈ st'.watchers ∧ w.registeredAt = now ∧
      w.expiresAt = now + p.duration.getD 0 := by
  simp only [WatcherStore.add] at h
  split at h
  · cases h
  · split at h
    · cases h
    · rw [Prod.mk.injEq] at h
      obtain ⟨hw, hst⟩ := h
      injection hw with hww
      subst hww
      subst hst
      refine ⟨?_, rfl, rfl⟩
      simp

/-- C9: every successful registration stores a watcher with
`registeredAt = now` and `expiresAt = registeredAt + duration`; and
whenever the supplied duration is not a number d with
`0 < d <= MAX_DURATION_MS`, registration fails with a validation error and
the registry is left completely unchanged. -/
theorem registerUIWatcher_expiry_and_bounds (st : WatcherStore)
    (p : RawParams) (now : Int) :
    (∀ w st', registerUIWatcher st p now = (Except.ok w, st') →
      w ∈ st'.watchers ∧ w.registeredAt = now ∧
      ∃ d, p.duration = some d ∧ w.expiresAt = w.registeredAt + d) ∧
    ((∀ d, p.duration = some d → ¬(0 < d ∧ d ≤ MAX_DURATION_MS)) →
      (registerUIWatcher st p now).2 = st ∧
      ∃ e, (registerUIWatcher st p now).1 = Except.error (RegError.validation e)) := by
  constructor
  · intro w st' h
    unfold registerUIWatcher at h
    cases hv : validateWatcherParams p with
    | error e => rw [hv] at h; cases h
    | ok u =>
      cases u
      rw [hv] at h
      rcases hadd : st.add p now with ⟨res, st2⟩
      rw [hadd] at h
      cases res with
      | error e => simp at h
      | ok w2 =>
        rw [Prod.mk.injEq] at h
        obtain ⟨h1, h2⟩ := h
        injection h1 with h1
        subst h1
        subst h2
        obtain ⟨hmem, hreg, hexp⟩ := add_ok st p now w2 st2 hadd
        obtain ⟨d, hd, _, _⟩ := validate_ok_duration p hv
        refine ⟨hmem, hreg, d, hd, ?_⟩
        rw [hexp, hreg, hd]
        simp
  · intro hbad
    obtain ⟨e, he⟩ := validate_bad_duration p hbad
    unfold registerUIWatcher
    rw [he]
    exact ⟨rfl, e, rfl⟩

/-- Witness for C9: a concrete successful registration at time 100 stores
wGood with `expiresAt = 100 + 30000`, and a concrete zero-duration
registration fails validation without touching the store. -/
theorem registerUIWatcher_expiry_and_bounds_witness :
    (registerUIWatcher stEmpty0 pGood 100 = (Except.ok wGood, stGood) ∧
      wGood ∈ stGood.watchers ∧ wGood.registeredAt = 100 ∧
      ∃ d, pGood.duration = some d ∧ wGood.expiresAt = wGood.registeredAt + d) ∧
    ((registerUIWatcher stEmpty0 pBad 100).2 = stEmpty0 ∧
      ∃ e, (registerUIWatcher stEmpty0 pBad 100).1 =
        Except.error (RegError.validation e)) :=
  ⟨⟨by decide,
    (registerUIWatcher_expiry_and_bounds stEmpty0 pGood 100).1 wGood stGood
      (by decide)⟩,
   (registerUIWatcher_expiry_and_bounds stEmpty0 pBad 100).2
     (by intro d hd; cases hd; decide)⟩

/-!
C1 — retry policy of the orchestrated single-element lookup.
-/

/-- C1 counterexample: with the registry disabled, `checkWatchers` returns
false, yet the `findElement` wrapper still retries the lookup, and when
that retry succeeds its result — not the original failure — is surfaced. -/
theorem findElement_retries_after_false :
    (UIWatchersPlugin.findElement dNull stDisabled cEmpty "id" "btn"
      (Except.error JsError.noSuchElement) (Except.ok "e2") 0).cwResult =
        some false ∧
    (UIWatchersPlugin.findElement dNull stDisabled cEmpty "id" "btn"
      (Except.error JsError.noSuchElement) (Except.ok "e2") 0).retried = true ∧
    (UIWatchersPlugin.findElement dNull stDisabled cEmpty "id" "btn"
      (Except.error JsError.noSuchElement) (Except.ok "e2") 0).result =
        Except.ok "e2" := by
  decide

/-- C1 amended: on a lookup failure classified as not-found or
stale-reference, the wrapper runs `checkWatchers` exactly once and then
always retries exactly once, regardless of the boolean `checkWatchers`
returned; a successful retry is surfaced (and cached), and only when the
retry also fails is the original failure surfaced. -/
theorem findElement_always_retries (d : Driver) (st : WatcherStore)
    (c : ElementReferenceCache) (strategy value : String) (e : JsError)
    (retry : Except JsError String) (now : Int)
    (h : shouldCheckWatchers e = true) :
    (UIWatchersPlugin.findElement d st c strategy value
      (Except.error e) retry now).cwRuns = 1 ∧
    (UIWatchersPlugin.findElement d st c strategy value
      (Except.error e) retry now).retried = true ∧
    (UIWatchersPlugin.findElement d st c strategy value
      (Except.error e) retry now).result =
      (match retry with
        | Except.ok el => Except.ok el
        | Except.error _ => Except.error e) := by
  cases retry with
  | ok el => simp [UIWatchersPlugin.findElement, h]
  | error e2 => simp [UIWatchersPlugin.findElement, h]

/-- Witness for C1's amended theorem: a classified failure with a failing
retry on a disabled registry surfaces the original error after one
`checkWatchers` run and one retry. -/
theorem findElement_always_retries_witness :
    (UIWatchersPlugin.findElement dNull stDisabled cEmpty "id" "btn"
      (Except.error JsError.noSuchElement)
      (Except.error JsError.otherError) 0).cwRuns = 1 ∧
    (UIWatchersPlugin.findElement dNull stDisabled cEmpty "id" "btn"
      (Except.error JsError.noSuchElement)
      (Except.error JsError.otherError) 0).retried = true ∧
    (UIWatchersPlugin.findElement dNull stDisabled cEmpty "id" "btn"
      (Except.error JsError.noSuchElement)
      (Except.error JsError.otherError) 0).result =
      (match (Except.error JsError.otherError : Except JsError String) with
        | Except.ok el => Except.ok el
        | Except.error _ => Except.error JsError.noSuchElement) :=
  findElement_always_retries dNull stDisabled cEmpty "id" "btn"
    JsError.noSuchElement (Except.error JsError.otherError) 0 (by decide)

/-!
C10 — inactive watchers: skipped by the engine, still listed, still
counted against capacity.
-/

/-- C10: a watcher whose status is inactive is skipped by the matching
engine with no driver calls and no state change; while unexpired it is
still contained in the `getActiveWatchers` snapshot (with its inactive
status intact, since the element itself is returned); and it still counts
toward the capacity check, which rejects a fresh name whenever the
unexpired count (inactive ones included) has reached `MAX_WATCHERS`. -/
theorem inactive_watcher_lifecycle :
    (∀ (d : Driver) (now : Int) (w : WatcherState) (st : WatcherStore),
      w.status = WStatus.inactive → checkOne d now w st = (false, [], st)) ∧
    (∀ (st : WatcherStore) (now : Int) (w : WatcherState),
      w ∈ st.watchers → now < w.expiresAt →
      w ∈ (st.getActiveWatchers now).1) ∧
    (∀ (st : WatcherStore) (p : RawParams) (now : Int),
      st.hasName p.name = false →
      MAX_WATCHERS ≤ (st.getActiveWatchers now).1.length →
      (st.add p now).1 = Except.error AddError.capacityExceeded) := by
  refine ⟨?_, ?_, ?_⟩
  · intro d now w st h
    unfold checkOne
    rw [if_pos h]
  · intro st now w hw hlt
    unfold WatcherStore.getActiveWatchers
    simp only [List.mem_filter, decide_eq_true_eq]
    exact ⟨hw, hlt⟩
  · intro st p now h1 h2
    unfold WatcherStore.add
    rw [if_neg (by simp [h1]), if_pos h2]

/-- Witness for C10 on concrete states: the inactive watcher wInactive is
skipped by `checkOne`, still appears in the unexpired snapshot of stInact
at time 1, and the full store stFive (which contains an inactive watcher)
rejects a sixth registration with the capacity error. -/
theorem inactive_watcher_lifecycle_witness :
    checkOne dYes 1 wInactive stInact = (false, [], stInact) ∧
    wInactive ∈ (stInact.getActiveWatchers 1).1 ∧
    (stFive.add pNew 1).1 = Except.error AddError.capacityExceeded :=
  ⟨inactive_watcher_lifecycle.1 dYes 1 wInactive stInact (by decide),
   inactive_watcher_lifecycle.2.1 stInact 1 wInactive (by decide) (by decide),
   inactive_watcher_lifecycle.2.2 stFive pNew 1 (by decide) (by decide)⟩

/-!
C3 — id resolution in element-action interception.
-/

/-- C3 counterexample: the mapping table resolves old to new, yet the
action is invoked on the original id old (the only invocation event in the
trace carries old, never new) — the resolution is not used for the
invocation itself. -/
theorem interceptAction_uses_original_id :
    cMap.getMappedId "old" = some "new" ∧
    (UIWatchersPlugin.interceptAction dYes stEmpty0 cMap "old" 0).events =
      [Ev.invoke "old"] := by
  decide

/-- C3 amended: the id-mapping resolution (with fallback to the raw id) is
computed, but the initial action invocation always targets the original
identifier — the first trace event is `invoke elementId` on every path;
the resolved identifier is used as the key of the cached-locator lookup
during stale-reference recovery, and the recovery retry then invokes the
action on the freshly located identifier. -/
theorem interceptAction_resolution (d : Driver) (st : WatcherStore)
    (c : ElementReferenceCache) (elementId : String) (now : Int) :
    ((UIWatchersPlugin.interceptAction d st c elementId now).events.head? =
      some (Ev.invoke elementId)) ∧
    (∀ ref c1 newId,
      d.act elementId = Except.error JsError.staleElementReference →
      (checkWatchers d st now).1 = true →
      c.getRef ((c.getMappedId elementId).getD elementId) now = (some ref, c1) →
      ref.index = none →
      d.findElement ref.strategy ref.value = some newId →
      ¬ newId = "" →
      (UIWatchersPlugin.interceptAction d st c elementId now).result =
        (d.act newId).mapError ActionError.js ∧
      Ev.invoke newId ∈ (UIWatchersPlugin.interceptAction d st c elementId now).events ∧
      (UIWatchersPlugin.interceptAction d st c elementId now).cache =
        c1.setMapping elementId newId) := by
  constructor
  · unfold UIWatchersPlugin.interceptAction
    cases hact : d.act elementId with
    | ok v => simp
    | error e =>
      by_cases he : e = JsError.staleElementReference
      · subst he
        simp only [ne_eq, not_true_eq_false, if_false, reduceIte]
        by_cases hcw : (checkWatchers d st now).1 = false
        · simp [hcw]
        · rcases hg : c.getRef ((c.getMappedId elementId).getD elementId) now with ⟨o, c1⟩
          cases o with
          | none => simp [hcw, hg]
          | some ref =>
            cases hidx : ref.index with
            | none =>
              cases hf : d.findElement ref.strategy ref.value with
              | none => simp [hcw, hg, hidx, hf]
              | some newId =>
                by_cases hne : newId = "" <;> simp [hcw, hg, hidx, hf, hne]
            | some idx =>
              by_cases hlen : (d.findElements ref.strategy ref.value).length ≤ idx
              · simp [hcw, hg, hidx, hlen]
              · simp [hcw, hg, hidx, hlen]
                split <;> simp
      · simp [he]
  · intro ref c1 newId hstale hcw hg hidx hf hne
    unfold UIWatchersPlugin.interceptAction
    rw [hstale]
    simp only [ne_eq, not_true_eq_false, if_false, reduceIte, hcw,
      Bool.true_eq_false, hg, hidx, hf, hne]
    exact ⟨by trivial, by simp, by trivial⟩

/-- Witness for C3's amended theorem: the concrete recovery scenario — a
stale action on old, a triggering watcher, a cached findElement locator
that re-locates to newEl — retries the action on newEl and records the
mapping. -/
theorem interceptAction_resolution_witness :
    (UIWatchersPlugin.interceptAction dRec stPlain cRec "old" 1).result =
      (dRec.act "newEl").mapError ActionError.js ∧
    Ev.invoke "newEl" ∈
      (UIWatchersPlugin.interceptAction dRec stPlain cRec "old" 1).events ∧
    (UIWatchersPlugin.interceptAction dRec stPlain cRec "old" 1).cache =
      cRec.setMapping "old" "newEl" :=
  (interceptAction_resolution dRec stPlain cRec "old" 1).2 refOld cRec "newEl"
    (by decide) (by decide) (by decide) (by decide) (by decide) (by decide)

/-!
C6 — association-map lemmas.
-/

/-- Lookup on a cons cell. -/
theorem mapLookup_cons {α : Type} (e : String × α) (m : List (String × α))
    (k : String) :
    mapLookup (e :: m) k = if e.1 = k then some e.2 else mapLookup m k := by
  by_cases h : e.1 = k
  · rw [if_pos h]
    unfold mapLookup
    rw [List.find?_cons_of_pos _ (by simp [h])]
    rfl
  · rw [if_neg h]
    unfold mapLookup
    rw [List.find?_cons_of_neg _ (by simp [h])]

/-- Lookup fails exactly on absent keys. -/
theorem mapLookup_eq_none {α : Type} (m : List (String × α)) (k : String) :
    mapLookup m k = none ↔ k ∉ m.map Prod.fst := by
  induction m with
  | nil => simp [mapLookup]
  | cons e t ih =>
    rw [mapLookup_cons]
    by_cases h : e.1 = k
    · simp [h]
    · rw [if_neg h, ih]
      simp only [List.map_cons, List.mem_cons]
      constructor
      · intro hnk hmem
        rcases hmem with hke | hmem
        · exact h hke.symm
        · exact hnk hmem
      · intro hn hmem
        exact hn (Or.inr hmem)

/-- A successful lookup implies key membership. -/
theorem mapLookup_mem {α : Type} (m : List (String × α)) (k : String)
    (v : α) (h : mapLookup m k = some v) : k ∈ m.map Prod.fst := by
  by_contra hc
  rw [← mapLookup_eq_none] at hc
  rw [hc] at h
  cases h

/-- Deleting a key removes it. -/
theorem mapLookup_mapDelete_self {α : Type} (m : List (String × α))
    (k : String) : mapLookup (mapDelete m k) k = none := by
  rw [mapLookup_eq_none]
  intro hmem
  rw [List.mem_map] at hmem
  obtain ⟨x, hx, hxk⟩ := hmem
  unfold mapDelete at hx
  rw [List.mem_filter] at hx
  simp only [decide_eq_true_eq] at hx
  exact hx.2 hxk

/-- Deleting a key leaves every other key unchanged. -/
theorem mapLookup_mapDelete_ne {α : Type} (m : List (String × α))
    (k k' : String) (h : ¬ k' = k) :
    mapLookup (mapDelete m k) k' = mapLookup m k' := by
  induction m with
  | nil => rfl
  | cons e t ih =>
    by_cases he : e.1 = k
    · have h1 : mapDelete (e :: t) k = mapDelete t k := by
        simp [mapDelete, List.filter_cons, he]
      rw [h1, ih, mapLookup_cons, if_neg (by rw [he]; exact fun hc => h hc.symm)]
    · have h1 : mapDelete (e :: t) k = e :: mapDelete t k := by
        simp [mapDelete, List.filter_cons, he]
      rw [h1, mapLookup_cons, mapLookup_cons, ih]

/-- The keys of a deletion are the filtered keys. -/
theorem mapDelete_keys {α : Type} (m : List (String × α)) (k : String) :
    (mapDelete m k).map Prod.fst = (m.map Prod.fst).filter (fun x => x ≠ k) := by
  unfold mapDelete
  exact (@List.filter_map (String × α) String (fun x => decide (x ≠ k))
    Prod.fst m).symm

/-- Deleting a present key from a map with duplicate-free keys removes
exactly one entry. -/
theorem mapDelete_length {α : Type} (m : List (String × α)) (k : String)
    (hnd : (m.map Prod.fst).Nodup) (hmem : k ∈ m.map Prod.fst) :
    (mapDelete m k).length + 1 = m.length := by
  have hlen : (mapDelete m k).length = ((mapDelete m k).map Prod.fst).length :=
    (List.length_map _ _).symm
  have hkeys : (mapDelete m k).map Prod.fst = (m.map Prod.fst).erase k := by
    rw [mapDelete_keys, List.Nodup.erase_eq_filter hnd k]
    apply List.filter_congr
    intro x _
    by_cases hx : x = k <;> simp [hx]
  have hm : m.length = (m.map Prod.fst).length := (List.length_map _ _).symm
  have hpos : 0 < (m.map Prod.fst).length := List.length_pos_of_mem hmem
  rw [hlen, hkeys, List.length_erase_of_mem hmem, hm]
  omega

/-- Setting an absent key appends the binding. -/
theorem mapSet_of_none {α : Type} (m : List (String × α)) (k : String)
    (v : α) (h : mapLookup m k = none) : mapSet m k v = m ++ [(k, v)] := by
  unfold mapSet
  rw [if_neg]
  intro hc
  rw [List.any_eq_true] at hc
  obtain ⟨e, he, hek⟩ := hc
  exact (mapLookup_eq_none m k).mp h
    (List.mem_map.mpr ⟨e, he, by simpa using hek⟩)

/-- Looking up the appended key of a previously absent binding. -/
theorem mapLookup_snoc_self {α : Type} (m : List (String × α)) (k : String)
    (v : α) (h : mapLookup m k = none) :
    mapLookup (m ++ [(k, v)]) k = some v := by
  induction m with
  | nil => simp [mapLookup_cons, mapLookup]
  | cons e t ih =>
    rw [mapLookup_cons] at h
    by_cases he : e.1 = k
    · rw [if_pos he] at h; cases h
    · rw [if_neg he] at h
      rw [List.cons_append, mapLookup_cons, if_neg he, ih h]

/-- Appending a fresh binding leaves other keys unchanged. -/
theorem mapLookup_snoc_ne {α : Type} (m : List (String × α)) (k k' : String)
    (v : α) (h : ¬ k' = k) :
    mapLookup (m ++ [(k, v)]) k' = mapLookup m k' := by
  induction m with
  | nil =>
    simp only [List.nil_append, mapLookup_cons]
    rw [if_neg (fun hc : k = k' => h hc.symm)]
  | cons e t ih =>
    rw [List.cons_append, mapLookup_cons, mapLookup_cons, ih]

/-- Under the cache invariant, the eviction loop at exact capacity runs
exactly once and drops exactly the front (least recently used) id of the
access order. -/
theorem evictLoop_step (c : ElementReferenceCache)
    (hInv : CacheInv c) (hFull : c.cache.length = c.maxCacheEntries)
    (hPos : 1 ≤ c.maxCacheEntries) :
    ∃ lru rest, c.accessOrder = lru :: rest ∧
      c.evictLoop =
        { c with cache := mapDelete c.cache lru, accessOrder := rest } ∧
      (mapDelete c.cache lru).length + 1 = c.cache.length := by
  obtain ⟨hnd, hperm⟩ := hInv
  have hkeysnd : (c.cache.map Prod.fst).Nodup := (hperm.nodup_iff).mpr hnd
  have hlen : c.accessOrder.length = c.cache.length := by
    rw [← hperm.length_eq, List.length_map]
  cases horder : c.accessOrder with
  | nil =>
    exfalso
    rw [horder] at hlen
    simp at hlen
    omega
  | cons lru rest =>
    have hmem : lru ∈ c.cache.map Prod.fst :=
      hperm.mem_iff.mpr (by rw [horder]; exact List.mem_cons_self _ _)
    have hdel := mapDelete_length c.cache lru hkeysnd hmem
    refine ⟨lru, rest, rfl, ?_, hdel⟩
    unfold ElementReferenceCache.evictLoop
    rw [if_pos (le_of_eq hFull.symm)]
    split
    · rename_i heq
      rw [horder] at heq
      cases heq
    · rename_i lru' rest' heq
      rw [horder] at heq
      injection heq with h1 h2
      subst h1
      subst h2
      unfold ElementReferenceCache.evictLoop
      rw [if_neg]
      intro hc
      dsimp at hc
      omega

/-- Inserting a fresh id into a full, well-formed cache evicts exactly the
least recently used entry: that key is gone, the new key is bound, every
other key is untouched, and the cache is full again. -/
theorem addToCache_at_capacity (c : ElementReferenceCache) (newId : String)
    (ref : CachedRef) (hInv : CacheInv c)
    (hFull : c.cache.length = c.maxCacheEntries)
    (hPos : 1 ≤ c.maxCacheEntries)
    (hNew : mapLookup c.cache newId = none) :
    ∃ lru rest, c.accessOrder = lru :: rest ∧ ¬ lru = newId ∧
      mapLookup (c.addToCache newId ref).cache lru = none ∧
      mapLookup (c.addToCache newId ref).cache newId = some ref ∧
      (∀ k, ¬ k = lru → ¬ k = newId →
        mapLookup (c.addToCache newId ref).cache k = mapLookup c.cache k) ∧
      (c.addToCache newId ref).cache.length = c.maxCacheEntries := by
  obtain ⟨lru, rest, horder, hloop, hdel⟩ := evictLoop_step c hInv hFull hPos
  obtain ⟨hnd, hperm⟩ := hInv
  have hlruMem : lru ∈ c.cache.map Prod.fst :=
    hperm.mem_iff.mpr (by rw [horder]; exact List.mem_cons_self _ _)
  have hlruNe : ¬ lru = newId := by
    intro he
    subst he
    exact (mapLookup_eq_none _ _).mp hNew hlruMem
  have hcache : (c.addToCache newId ref).cache =
      mapSet (mapDelete c.cache lru) newId ref := by
    unfold ElementReferenceCache.addToCache ElementReferenceCache.updateAccessOrder
    rw [hloop]
  have hNewDel : mapLookup (mapDelete c.cache lru) newId = none := by
    rw [mapLookup_mapDelete_ne c.cache lru newId (fun hc => hlruNe hc.symm)]
    exact hNew
  have hset : mapSet (mapDelete c.cache lru) newId ref =
      mapDelete c.cache lru ++ [(newId, ref)] :=
    mapSet_of_none _ _ _ hNewDel
  refine ⟨lru, rest, horder, hlruNe, ?_, ?_, ?_, ?_⟩
  · rw [hcache, hset, mapLookup_snoc_ne _ _ _ _ hlruNe, mapLookup_mapDelete_self]
  · rw [hcache, hset]
    exact mapLookup_snoc_self _ _ _ hNewDel
  · intro k hk1 hk2
    rw [hcache, hset, mapLookup_snoc_ne _ _ _ _ hk2,
      mapLookup_mapDelete_ne _ _ _ hk1]
  · rw [hcache, hset, List.length_append]
    simp only [List.length_singleton]
    omega

/-- Anatomy of a cache hit: the entry is bound in the cache and the
returned state only refreshes the LRU order. -/
theorem getRef_hit (c : ElementReferenceCache) (e : String) (now : Int)
    (r : CachedRef) (c' : ElementReferenceCache)
    (h : c.getRef e now = (some r, c')) :
    mapLookup c.cache e = some r ∧ c' = c.updateAccessOrder e := by
  unfold ElementReferenceCache.getRef at h
  cases hl : mapLookup c.cache e with
  | none =>
    rw [hl] at h
    cases h
  | some r0 =>
    rw [hl] at h
    dsimp only at h
    split at h
    · cases h
    · rw [Prod.mk.injEq] at h
      obtain ⟨h1, h2⟩ := h
      injection h1 with h1
      subst h1
      exact ⟨rfl, h2.symm⟩

/-- A lookup hit moves the entry to most-recently-used, so it survives the
eviction caused by the next at-capacity insertion of a fresh id. -/
theorem getRef_then_insert (c : ElementReferenceCache) (e : String)
    (now : Int) (r : CachedRef) (c' : ElementReferenceCache)
    (newId : String) (ref : CachedRef) (hInv : CacheInv c)
    (hGet : c.getRef e now = (some r, c'))
    (hTwo : 2 ≤ c.cache.length)
    (hFull : c.cache.length = c.maxCacheEntries)
    (hNew : mapLookup c.cache newId = none) :
    mapLookup (c'.addToCache newId ref).cache e = some r := by
  obtain ⟨hl, hc'⟩ := getRef_hit c e now r c' hGet
  obtain ⟨hnd, hperm⟩ := hInv
  have heMemKeys : e ∈ c.cache.map Prod.fst := mapLookup_mem _ _ _ hl
  have heMem : e ∈ c.accessOrder := hperm.mem_iff.mp heMemKeys
  have hnd' : (c.accessOrder.erase e ++ [e]).Nodup := by
    rw [List.nodup_append]
    refine ⟨hnd.erase e, List.nodup_singleton e, ?_⟩
    intro x hx hxe
    rw [List.mem_singleton] at hxe
    subst hxe
    exact ((List.Nodup.mem_erase_iff hnd).mp hx).1 rfl
  have hperm' : (c.cache.map Prod.fst).Perm (c.accessOrder.erase e ++ [e]) :=
    (hperm.trans (List.perm_cons_erase heMem)).trans
      (List.perm_append_singleton e (c.accessOrder.erase e)).symm
  have hInv' : CacheInv c' := by
    rw [hc']
    exact ⟨hnd', hperm'⟩
  have hc'cache : c'.cache = c.cache := by rw [hc']; rfl
  have hc'max : c'.maxCacheEntries = c.maxCacheEntries := by rw [hc']; rfl
  have hc'order : c'.accessOrder = c.accessOrder.erase e ++ [e] := by
    rw [hc']; rfl
  obtain ⟨lru, rest, horder', hlruNe, hlruGone, hNewIn, hOther, hLen⟩ :=
    addToCache_at_capacity c' newId ref hInv'
      (by rw [hc'cache, hc'max]; exact hFull)
      (by rw [hc'max]; omega)
      (by rw [hc'cache]; exact hNew)
  have horder'' : c.accessOrder.erase e ++ [e] = lru :: rest := by
    rw [← hc'order]
    exact horder'
  have hkl : c.accessOrder.length = c.cache.length := by
    rw [← hperm.length_eq, List.length_map]
  have hlenErase : 1 ≤ (c.accessOrder.erase e).length := by
    rw [List.length_erase_of_mem heMem]
    omega
  have heNeLru : ¬ e = lru := by
    cases herase : c.accessOrder.erase e with
    | nil =>
      rw [herase] at hlenErase
      simp at hlenErase
    | cons hd t =>
      rw [herase, List.cons_append] at horder''
      injection horder'' with h1 _
      intro he
      have : e ∈ c.accessOrder.erase e := by
        rw [herase, he, h1]
        exact List.mem_cons_self _ _
      exact ((List.Nodup.mem_erase_iff hnd).mp this).1 rfl
  have heNeNew : ¬ e = newId := by
    intro he
    subst he
    rw [hl] at hNew
    cases hNew
  rw [hOther e heNeLru heNeNew, hc'cache]
  exact hl

/-- C6: insertion into a full, well-formed cache evicts exactly the least
recently touched entry — the key at the front of the LRU order is removed,
the fresh key is added, every other entry and the total size are preserved;
and a `getRef` hit promotes the looked-up entry to most recently used, so
the next at-capacity insertion of a fresh id evicts some other entry and
the hit entry is still present afterwards. -/
theorem lru_eviction :
    (∀ (c : ElementReferenceCache) (newId : String) (ref : CachedRef),
      CacheInv c → c.cache.length = c.maxCacheEntries →
      1 ≤ c.maxCacheEntries → mapLookup c.cache newId = none →
      ∃ lru rest, c.accessOrder = lru :: rest ∧
        mapLookup (c.addToCache newId ref).cache lru = none ∧
        mapLookup (c.addToCache newId ref).cache newId = some ref ∧
        (∀ k, ¬ k = lru → ¬ k = newId →
          mapLookup (c.addToCache newId ref).cache k = mapLookup c.cache k) ∧
        (c.addToCache newId ref).cache.length = c.maxCacheEntries) ∧
    (∀ (c : ElementReferenceCache) (e : String) (now : Int) (r : CachedRef)
      (c' : ElementReferenceCache) (newId : String) (ref : CachedRef),
      CacheInv c → c.getRef e now = (some r, c') → 2 ≤ c.cache.length →
      c.cache.length = c.maxCacheEntries → mapLookup c.cache newId = none →
      mapLookup (c'.addToCache newId ref).cache e = some r) := by
  constructor
  · intro c newId ref hInv hFull hPos hNew
    obtain ⟨lru, rest, h1, _, h3, h4, h5, h6⟩ :=
      addToCache_at_capacity c newId ref hInv hFull hPos hNew
    exact ⟨lru, rest, h1, h3, h4, h5, h6⟩
  · intro c e now r c' newId ref hInv hGet hTwo hFull hNew
    exact getRef_then_insert c e now r c' newId ref hInv hGet hTwo hFull hNew

/-- Witness for C6 on the concrete full cache cTwo (capacity two, keys a
then b in LRU order): inserting c evicts exactly the LRU entry, and after
a hit on a the subsequent insertion of c leaves a cached. -/
theorem lru_eviction_witness :
    (∃ lru rest, cTwo.accessOrder = lru :: rest ∧
      mapLookup (cTwo.addToCache "c" r3).cache lru = none ∧
      mapLookup (cTwo.addToCache "c" r3).cache "c" = some r3 ∧
      (∀ k, ¬ k = lru → ¬ k = "c" →
        mapLookup (cTwo.addToCache "c" r3).cache k = mapLookup cTwo.cache k) ∧
      (cTwo.addToCache "c" r3).cache.length = cTwo.maxCacheEntries) ∧
    mapLookup (((cTwo.getRef "a" 1).2).addToCache "c" r3).cache "a" = some r1 :=
  ⟨lru_eviction.1 cTwo "c" r3 ⟨by decide, by decide⟩ (by decide) (by decide)
      (by decide),
   lru_eviction.2 cTwo "a" 1 r1 (cTwo.getRef "a" 1).2 "c" r3
      ⟨by decide, by decide⟩ (by decide) (by decide) (by decide) (by decide)⟩
